import Mathlib

/-!
Verification development for the youtube-transcript metered MCP gateway.

This file gives a shallow embedding of the concurrency-and-cost-control
subsystem of the repository:

* `hashApifyInput` and the cache-key construction (src/apify-cache.ts),
  including a full executable SHA-256 so that digests are real;
* the `ApifySemaphore` durable object (acquireSlot / releaseSlot /
  cleanupStaleSlots, src/apify-client.ts);
* the balance ledger (`checkBalance`, `consumeTokens`,
  `consumeTokensWithRetry`, tokenConsumption module);
* the `get_youtube_transcript` tool handler that composes them
  (server module).

JavaScript `Map`s are embedded as insertion-ordered association lists,
D1 rows as records, `Date.now()` / `crypto.randomUUID()` results as
explicit parameters, and thrown exceptions as `Except`.  External
collaborators excluded by the spec (URL parsing, the sanitizer package,
the Apify HTTP backend) enter the handler model as oracle fields of its
environment.
-/

namespace YT

/-! ## JSON values and `JSON.stringify`

JavaScript objects are embedded as insertion-ordered field lists; the
serializer follows `JSON.stringify`, which emits object fields in
insertion order. -/

inductive Json where
  | str (s : String)
  | num (n : Int)
  | bool (b : Bool)
  | null
  | arr (xs : List Json)
  | obj (fields : List (String × Json))
deriving Repr

mutual

def serialize : Json → String
  | Json.str s => "\"" ++ s ++ "\""
  | Json.num n => toString n
  | Json.bool b => if b then "true" else "false"
  | Json.null => "null"
  | Json.arr xs => "[" ++ serializeList xs ++ "]"
  | Json.obj fs => "\x7b" ++ serializeFields fs ++ "\x7d"

def serializeList : List Json → String
  | [] => ""
  | [x] => serialize x
  | x :: y :: rest => serialize x ++ "," ++ serializeList (y :: rest)

def serializeFields : List (String × Json) → String
  | [] => ""
  | [(k, v)] => "\"" ++ k ++ "\":" ++ serialize v
  | (k, v) :: q :: rest =>
      "\"" ++ k ++ "\":" ++ serialize v ++ "," ++ serializeFields (q :: rest)

end

/-! ## SHA-256 (crypto.subtle.digest("SHA-256", ...))

Executable SHA-256 over byte lists, words as `Nat` reduced mod `2^32`. -/

def w32 (n : Nat) : Nat := n % 4294967296

def rotr32 (x n : Nat) : Nat := w32 ((x >>> n) ||| (x <<< (32 - n)))

def shaCh (x y z : Nat) : Nat := (x &&& y) ^^^ ((x ^^^ 4294967295) &&& z)

def shaMaj (x y z : Nat) : Nat := (x &&& y) ^^^ (x &&& z) ^^^ (y &&& z)

def bigSigma0 (x : Nat) : Nat := rotr32 x 2 ^^^ rotr32 x 13 ^^^ rotr32 x 22

def bigSigma1 (x : Nat) : Nat := rotr32 x 6 ^^^ rotr32 x 11 ^^^ rotr32 x 25

def smallSigma0 (x : Nat) : Nat := rotr32 x 7 ^^^ rotr32 x 18 ^^^ (x >>> 3)

def smallSigma1 (x : Nat) : Nat := rotr32 x 17 ^^^ rotr32 x 19 ^^^ (x >>> 10)

def shaK : List Nat :=
  [1116352408, 1899447441, 3049323471, 3921009573, 961987163,
   1508970993, 2453635748, 2870763221, 3624381080, 310598401,
   607225278, 1426881987, 1925078388, 2162078206, 2614888103,
   3248222580, 3835390401, 4022224774, 264347078, 604807628,
   770255983, 1249150122, 1555081692, 1996064986, 2554220882,
   2821834349, 2952996808, 3210313671, 3336571891, 3584528711,
   113926993, 338241895, 666307205, 773529912, 1294757372,
   1396182291, 1695183700, 1986661051, 2177026350, 2456956037,
   2730485921, 2820302411, 3259730800, 3345764771, 3516065817,
   3600352804, 4094571909, 275423344, 430227734, 506948616,
   659060556, 883997877, 958139571, 1322822218, 1537002063,
   1747873779, 1955562222, 2024104815, 2227730452, 2361852424,
   2428436474, 2756734187, 3204031479, 3329325298]

def shaH0 : List Nat :=
  [1779033703, 3144134277, 1013904242, 2773480762,
   1359893119, 2600822924, 528734635, 1541459225]

/-- Big-endian byte expansion of `n` on `k` bytes. -/
def toBytesBE (k n : Nat) : List Nat :=
  (List.range k).map (fun i => n / 2 ^ (8 * (k - 1 - i)) % 256)

/-- SHA-256 message padding: append `0x80`, zero bytes up to 56 mod 64,
then the 8-byte big-endian bit length. -/
def shaPad (msg : List Nat) : List Nat :=
  let len := msg.length
  let zeros := (119 - len % 64) % 64
  msg ++ [0x80] ++ List.replicate zeros 0 ++ toBytesBE 8 (8 * len)

/-- Group bytes into big-endian 32-bit words. -/
def bytesToWords : List Nat → List Nat
  | b0 :: b1 :: b2 :: b3 :: rest =>
      (((b0 * 256 + b1) * 256 + b2) * 256 + b3) :: bytesToWords rest
  | _ => []

/-- Extend the 16-word schedule by `k` more words. -/
def extendW : Nat → Array Nat → Array Nat
  | 0, w => w
  | k + 1, w =>
      let n := w.size
      extendW k (w.push (w32 (smallSigma1 (w.getD (n - 2) 0) + w.getD (n - 7) 0 +
        smallSigma0 (w.getD (n - 15) 0) + w.getD (n - 16) 0)))

/-- One SHA-256 compression round on state `[a,b,c,d,e,f,g,h]`. -/
def compressRound (st : List Nat) (ki wi : Nat) : List Nat :=
  match st with
  | [a, b, c, d, e, f, g, h] =>
      let t1 := w32 (h + bigSigma1 e + shaCh e f g + ki + wi)
      let t2 := w32 (bigSigma0 a + shaMaj a b c)
      [w32 (t1 + t2), a, b, c, w32 (d + t1), e, f, g]
  | _ => st

/-- Process one 64-byte block against the running hash value. -/
def processBlock (h : List Nat) (block : List Nat) : List Nat :=
  let w := (extendW 48 (Array.mk (bytesToWords block))).toList
  let st := (shaK.zip w).foldl (fun st p => compressRound st p.1 p.2) h
  (h.zip st).map (fun p => w32 (p.1 + p.2))

/-- Process `k` consecutive 64-byte blocks of `l`. -/
def processBlocks : Nat → List Nat → List Nat → List Nat
  | 0, h, _ => h
  | k + 1, h, l => processBlocks k (processBlock h (l.take 64)) (l.drop 64)

/-- SHA-256 digest (32 bytes) of a byte list. -/
def sha256bytes (msg : List Nat) : List Nat :=
  let padded := shaPad msg
  ((processBlocks (padded.length / 64) shaH0 padded).map (toBytesBE 4)).flatten

def hexDigitChar (n : Nat) : Char :=
  if n < 10 then Char.ofNat (48 + n) else Char.ofNat (87 + n)

def byteToHex (b : Nat) : String :=
  String.mk [hexDigitChar (b / 16), hexDigitChar (b % 16)]

def bytesToHex (l : List Nat) : String := String.join (l.map byteToHex)

/-- Bytes of an ASCII string (UTF-8 agrees with code points on ASCII,
which covers every string this repository hashes). -/
def strBytes (s : String) : List Nat := s.data.map Char.toNat

def sha256hex (s : String) : String := bytesToHex (sha256bytes (strBytes s))

/-- Sanity check of the SHA-256 embedding against the FIPS 180-2 test
vector for "abc". -/
theorem sha256hex_abc :
    sha256hex "abc" =
      "ba7816bf8f01cfea414140de5dae2223b00361a396177a9cb410ff61f20015ad" := by
  decide

/-! ## `hashApifyInput` (src/apify-cache.ts)

The source sorts the TOP-LEVEL keys of the input object, rebuilds the
object by reading each key in sorted order, `JSON.stringify`s it and
takes the SHA-256 hex digest.  Nested values are serialized as-is. -/

/-- `input[key]` on the embedded object (present for every key produced
by `Object.keys`). -/
def jsIndex (input : List (String × Json)) (k : String) : Json :=
  ((input.find? (fun p => p.1 = k)).map Prod.snd).getD Json.null

/-- Lexicographic char-list comparison by code point — JavaScript's
default string sort comparator (core's `String.ltb` is opaque to kernel
reduction, so the comparator is embedded explicitly). -/
def strLeChars : List Char → List Char → Bool
  | [], _ => true
  | _ :: _, [] => false
  | a :: as, b :: bs =>
      if a.toNat = b.toNat then strLeChars as bs
      else decide (a.toNat < b.toNat)

def jsStrLe (a b : String) : Prop := strLeChars a.data b.data = true

instance : DecidableRel jsStrLe :=
  fun a b => inferInstanceAs (Decidable (strLeChars a.data b.data = true))

/-- `Object.keys(input).sort()`: JavaScript's default sort on strings is
lexicographic by code unit, embedded via `List.insertionSort`. -/
def sortedKeysOf (input : List (String × Json)) : List String :=
  List.insertionSort jsStrLe (input.map Prod.fst)

def hashApifyInput (input : List (String × Json)) : String :=
  let sortedInput := (sortedKeysOf input).map (fun k => (k, jsIndex input k))
  let jsonString := serialize (Json.obj sortedInput)
  sha256hex jsonString

/-- `buildCacheKey` from src/apify-cache.ts. -/
def buildCacheKey (actorId inputHash : String) : String :=
  "apify:" ++ actorId ++ ":" ++ inputHash

/-! ## `ApifySemaphore` (src/apify-client.ts)

The durable object's fields `activeSlots : number` and
`slotRegistry : Map<string, {userId, actorId, timestamp}>` are embedded
as an `Int` counter and an insertion-ordered association list (the
semantics of a JavaScript `Map`: `set` of an existing key updates it in
place, otherwise appends; iteration follows insertion order).
`Date.now()` results are explicit parameters. -/

structure SlotInfo where
  userId : String
  actorId : String
  timestamp : Nat
deriving Repr, DecidableEq

structure SemState where
  activeSlots : Int
  slotRegistry : List (String × SlotInfo)
deriving Repr, DecidableEq

def MAX_SLOTS : Int := 32

def initSem : SemState := { activeSlots := 0, slotRegistry := [] }

/-- `Map.prototype.set`. -/
def mapSet (m : List (String × SlotInfo)) (k : String) (v : SlotInfo) :
    List (String × SlotInfo) :=
  if m.any (fun p => p.1 = k) then
    m.map (fun p => if p.1 = k then (k, v) else p)
  else
    m ++ [(k, v)]

/-- `Map.prototype.delete` (keys are unique in a `Map`). -/
def mapDelete (m : List (String × SlotInfo)) (k : String) :
    List (String × SlotInfo) :=
  m.filter (fun p => ¬ p.1 = k)

structure SemaphoreSlot where
  acquired : Bool
  currentSlots : Int
  maxSlots : Int
  estimatedWaitTime : Option Int
deriving Repr, DecidableEq

/-- `acquireSlot(userId, actorId)`.  `nowId` is the `Date.now()` used to
build the slot id, `nowTs` the one recorded in the registry entry. -/
def acquireSlot (s : SemState) (userId actorId : String) (nowId nowTs : Nat) :
    SemaphoreSlot × SemState :=
  if s.activeSlots ≥ MAX_SLOTS then
    ({ acquired := false, currentSlots := s.activeSlots, maxSlots := MAX_SLOTS,
       estimatedWaitTime := some 60 }, s)
  else
    let active := s.activeSlots + 1
    let slotId := userId ++ "-" ++ toString nowId
    let reg := mapSet s.slotRegistry slotId
      { userId := userId, actorId := actorId, timestamp := nowTs }
    ({ acquired := true, currentSlots := active, maxSlots := MAX_SLOTS,
       estimatedWaitTime := none },
     { activeSlots := active, slotRegistry := reg })

/-- `releaseSlot(userId)`: the `for..of` loop over the registry deletes
the first entry (in insertion order) whose `userId` matches and breaks;
if one was found the counter is decremented, floored at zero. -/
def releaseSlot (s : SemState) (userId : String) : SemState :=
  match s.slotRegistry.find? (fun p => p.2.userId = userId) with
  | some (slotId, _) =>
      { activeSlots := max 0 (s.activeSlots - 1),
        slotRegistry := mapDelete s.slotRegistry slotId }
  | none => s

def STALE_THRESHOLD : Nat := 5 * 60 * 1000

/-- One iteration of the `cleanupStaleSlots` loop: delete the entry and
decrement the counter (floored at zero) when it is older than the
threshold. -/
def cleanupStep (now : Nat) (acc : Nat × SemState) (p : String × SlotInfo) :
    Nat × SemState :=
  if now - p.2.timestamp > STALE_THRESHOLD then
    (acc.1 + 1,
     { activeSlots := max 0 (acc.2.activeSlots - 1),
       slotRegistry := mapDelete acc.2.slotRegistry p.1 })
  else acc

/-- `cleanupStaleSlots()`: iterates the registry snapshot, deleting each
entry older than the threshold and decrementing the counter (floored at
zero) per deletion; returns the number of reclaimed slots. -/
def cleanupStaleSlots (s : SemState) (now : Nat) : Nat × SemState :=
  s.slotRegistry.foldl (cleanupStep now) (0, s)

/-- An observable operation on the semaphore singleton. -/
inductive SemOp where
  | acquire (userId actorId : String) (nowId nowTs : Nat)
  | release (userId : String)
  | cleanup (now : Nat)
deriving Repr, DecidableEq

def applySemOp (s : SemState) : SemOp → SemState
  | SemOp.acquire u a n t => (acquireSlot s u a n t).2
  | SemOp.release u => releaseSlot s u
  | SemOp.cleanup n => (cleanupStaleSlots s n).2

def runSemOps (s : SemState) (ops : List SemOp) : SemState :=
  ops.foldl applySemOp s

/-- The slot ids generated by the acquire operations of a trace. -/
def acquireIds : List SemOp → List String
  | [] => []
  | SemOp.acquire u _ n _ :: rest => (u ++ "-" ++ toString n) :: acquireIds rest
  | _ :: rest => acquireIds rest

def semKeys (s : SemState) : List String := s.slotRegistry.map Prod.fst

/-! ## Balance ledger (tokenConsumption module)

The D1 tables touched by `checkBalance` / `consumeTokens` /
`consumeTokensWithRetry` are embedded as row lists keyed by
`user_id` / `action_id`.  `crypto.randomUUID()` and timestamps are
explicit parameters; thrown errors are `Except.error` carrying the
message.  A D1 `batch` is a transaction, so the failing paths leave the
database unchanged. -/

structure UserRow where
  current_token_balance : Int
  total_tokens_used : Int
  is_deleted : Int
deriving Repr, DecidableEq

structure ActionRow where
  action_id : String
  user_id : String
  mcp_server_name : String
  tool_name : String
  parameters : String
  tokens_consumed : Int
  success : Bool
  created_at : String
deriving Repr, DecidableEq

structure TxRow where
  transaction_id : String
  user_id : String
  txType : String
  token_amount : Int
  balance_after : Int
  description : String
  created_at : String
deriving Repr, DecidableEq

structure FailedRow where
  action_id : String
  user_id : String
  mcp_server_name : String
  tool_name : String
  token_amount : Int
  parameters : String
  error_message : String
  created_at : String
  retry_count : Nat
deriving Repr, DecidableEq

structure DB where
  users : List (String × UserRow)
  mcp_actions : List ActionRow
  transactions : List TxRow
  failed_deductions : List FailedRow
deriving Repr, DecidableEq

def findUser (db : DB) (userId : String) : Option UserRow :=
  (db.users.find? (fun p => p.1 = userId)).map Prod.snd

def findAction (db : DB) (actionId : String) : Option ActionRow :=
  db.mcp_actions.find? (fun a => a.action_id = actionId)

/-- `UPDATE users SET ... WHERE user_id = ?` on the embedded table. -/
def updateUser (users : List (String × UserRow)) (userId : String)
    (row : UserRow) : List (String × UserRow) :=
  users.map (fun p => if p.1 = userId then (userId, row) else p)

structure BalanceCheckResult where
  sufficient : Bool
  currentBalance : Int
  required : Int
  userDeleted : Option Bool
deriving Repr, DecidableEq

/-- `checkBalance(db, userId, requiredTokens)`.  The result type is
`Except` because the source function can re-throw a storage failure;
the pure embedding has no storage faults, so every branch of the source
that the claims reach returns `Except.ok`. -/
def checkBalance (db : DB) (userId : String) (requiredTokens : Int) :
    Except String BalanceCheckResult :=
  match findUser db userId with
  | none =>
      Except.ok { sufficient := false, currentBalance := 0,
                  required := requiredTokens, userDeleted := none }
  | some u =>
      if u.is_deleted = 1 then
        Except.ok { sufficient := false, currentBalance := u.current_token_balance,
                    required := requiredTokens, userDeleted := some true }
      else
        Except.ok { sufficient := decide (u.current_token_balance ≥ requiredTokens),
                    currentBalance := u.current_token_balance,
                    required := requiredTokens, userDeleted := some false }

structure TokenConsumptionResult where
  success : Bool
  newBalance : Int
  transactionId : String
  actionId : String
  alreadyProcessed : Option Bool
deriving Repr, DecidableEq

/-- `consumeTokens(...)`: idempotency lookup on `action_id` first, then
input validation, then the atomic three-statement batch (balance
update — failing when it affects zero rows —, transaction insert with
the post-update balance, action insert), then the fresh balance read.
The source's `(actionParams, actionResult)` pair enters here already
serialized, as `parametersJson = JSON.stringify({params, result})`.
The unique-constraint re-entry branch of the source is unreachable in
this sequential embedding because the idempotency lookup and the insert
are not interleaved with other writers. -/
def consumeTokens (db : DB) (userId : String) (tokenAmount : Int)
    (mcpServerName toolName : String) (parametersJson : String)
    (success : Bool) (actionId : String) (transactionId : String)
    (timestamp : String) :
    Except String (TokenConsumptionResult × DB) :=
  match findAction db actionId with
  | some _ =>
      let bal := match findUser db userId with
        | some u => u.current_token_balance
        | none => 0
      Except.ok
        ({ success := true, newBalance := bal, transactionId := "existing",
           actionId := actionId, alreadyProcessed := some true }, db)
  | none =>
      if tokenAmount ≤ 0 then
        Except.error "Failed to consume tokens: Token amount must be positive"
      else if userId = "" ∨ mcpServerName = "" ∨ toolName = "" then
        Except.error "Failed to consume tokens: Missing required parameters"
      else
        match findUser db userId with
        | none =>
            Except.error "Failed to consume tokens: User not found or balance update failed"
        | some u =>
            let newBal := u.current_token_balance - tokenAmount
            let db' : DB :=
              { users := updateUser db.users userId
                  { u with current_token_balance := newBal,
                           total_tokens_used := u.total_tokens_used + tokenAmount },
                mcp_actions := db.mcp_actions ++
                  [{ action_id := actionId, user_id := userId,
                     mcp_server_name := mcpServerName, tool_name := toolName,
                     parameters := parametersJson, tokens_consumed := tokenAmount,
                     success := success, created_at := timestamp }],
                transactions := db.transactions ++
                  [{ transaction_id := transactionId, user_id := userId,
                     txType := "usage", token_amount := -tokenAmount,
                     balance_after := newBal,
                     description := mcpServerName ++ ": " ++ toolName,
                     created_at := timestamp }],
                failed_deductions := db.failed_deductions }
            Except.ok
              ({ success := true, newBalance := newBal,
                 transactionId := transactionId, actionId := actionId,
                 alreadyProcessed := some false }, db')

/-- `consumeTokensWithRetry(...)`: retries `consumeTokens` up to
`maxRetries` times.  `consumeTokens` is deterministic and its failing
paths do not mutate the database, so the retries collapse: on success
the first attempt's outcome stands, and on failure the wrapper inserts
a `failed_deductions` row (recording `maxRetries` attempts) and
re-throws the last error. -/
def consumeTokensWithRetry (db : DB) (userId : String) (tokenAmount : Int)
    (mcpServerName toolName : String) (parametersJson : String)
    (success : Bool) (actionId : String) (transactionId : String)
    (timestamp : String) (maxRetries : Nat := 3) :
    Except String TokenConsumptionResult × DB :=
  match consumeTokens db userId tokenAmount mcpServerName toolName
      parametersJson success actionId transactionId timestamp with
  | Except.ok (res, db') => (Except.ok res, db')
  | Except.error e =>
      (Except.error e,
       { db with failed_deductions := db.failed_deductions ++
           [{ action_id := actionId, user_id := userId,
              mcp_server_name := mcpServerName, tool_name := toolName,
              token_amount := tokenAmount, parameters := parametersJson,
              error_message := e, created_at := timestamp,
              retry_count := maxRetries }] })

/-! ## The `get_youtube_transcript` tool handler (server module)

The handler is embedded as a state-transformer over the world (D1
database, cache KV namespace, semaphore singleton).  Collaborators that
the spec excludes enter as oracle fields of the environment:

* `videoId` stands for `extractYouTubeVideoId(videoUrl)` (URL parsing);
* `backend` stands for the awaited `runActorSync` call — `Except.error`
  is a thrown `ApifyError`, `Except.ok items` the retrieved dataset;
* `redactedOf` stands for the
  `redactPII(sanitizeOutput(formatTranscriptAsText(transcript))).redacted`
  chain (the sanitizer is an external package).

`Date.now()`, `crypto.randomUUID()` and timestamps are explicit
environment fields.  The run result records, besides the tool outcome
and the final world, every `consumeTokensWithRetry` invocation (amount
and action id) and the number of `acquireSlot` / `releaseSlot` /
`runActorSync` invocations, so that ordering claims are statable. -/

def ACTOR_ID : String := "faVsWy9VTSNVIhWpR"
def FLAT_COST : Int := 3
def MAX_COST : Int := 3
def TOOL_NAME : String := "get_youtube_transcript"

/-- The first dataset item as the handler sees it: `data` is `none`
when the field is absent or not an array. -/
structure Transcript where
  data : Option (List String)
deriving Repr, DecidableEq

/-- The `finalResult` object the handler caches and returns. -/
structure CachedResult where
  videoId : String
  videoUrl : String
  transcript : String
  wordCount : Nat
deriving Repr, DecidableEq

structure World where
  db : DB
  cacheKV : List (String × CachedResult)
  sem : SemState
deriving Repr, DecidableEq

def kvGet (kv : List (String × CachedResult)) (k : String) : Option CachedResult :=
  (kv.find? (fun p => p.1 = k)).map Prod.snd

def kvPut (kv : List (String × CachedResult)) (k : String) (v : CachedResult) :
    List (String × CachedResult) :=
  if kv.any (fun p => p.1 = k) then
    kv.map (fun p => if p.1 = k then (k, v) else p)
  else
    kv ++ [(k, v)]

structure ToolEnv where
  videoUrl : String
  videoId : Option String
  userId : Option String
  backend : Except String (List Transcript)
  redactedOf : Transcript → String
  nowId : Nat
  nowTs : Nat
  actionId : String
  txId : String
  timestamp : String

structure ToolOutcome where
  isError : Bool
  text : String
deriving Repr, DecidableEq

structure RunResult where
  outcome : ToolOutcome
  world : World
  debitCalls : List (Int × String)
  acquireCalls : Nat
  releaseCalls : Nat
  backendCalls : Nat

/-- `formatInsufficientTokensError` from the token utility module. -/
def formatInsufficientTokensError (toolName : String)
    (currentBalance requiredTokens : Int) : String :=
  let tokenWord :=
    if currentBalance = 1 then "token"
    else if currentBalance = 0 ∨ currentBalance ≥ 5 then "tokenów" else "tokeny"
  let requiredWord :=
    if requiredTokens = 1 then "token"
    else if requiredTokens ≥ 5 then "tokenów" else "tokeny"
  "Niewystarczająca liczba tokenów do wykonania " ++ toolName ++
    ".\nAktualny stan: " ++ toString currentBalance ++ " " ++ tokenWord ++
    "\nWymagane: " ++ toString requiredTokens ++ " " ++ requiredWord ++
    "\nKup tokeny: https://panel.wtyczki.ai/"

/-- `String.prototype.trim`, over the character list (core's
`String.trim` is opaque to kernel reduction; the handler only tests the
result against the empty string). -/
def trimChars (s : String) : String :=
  String.mk
    ((s.data.dropWhile Char.isWhitespace).reverse.dropWhile
      Char.isWhitespace).reverse

/-- `split(/\s+/)`: cut at maximal whitespace runs, keeping the
(possibly empty) leading and trailing pieces, as JavaScript does. -/
def splitWs : List Char → List String
  | [] => [""]
  | c :: rest =>
      if c.isWhitespace then
        match rest with
        | r :: _ => if r.isWhitespace then splitWs rest else "" :: splitWs rest
        | [] => ["", ""]
      else
        match splitWs rest with
        | st :: ss => String.mk (c :: st.data) :: ss
        | [] => [String.mk [c]]

/-- `redacted.split(/\s+/).length` (the handler's word count). -/
def countWords (s : String) : Nat := (splitWs s.data).length

/-- The `catch` block's outcome for a thrown error. -/
def errorOutcome (msg : String) : ToolOutcome :=
  { isError := true, text := "Error: " ++ msg }

def cachedToJson (c : CachedResult) : Json :=
  Json.obj [("videoId", Json.str c.videoId), ("videoUrl", Json.str c.videoUrl),
            ("transcript", Json.str c.transcript),
            ("wordCount", Json.num c.wordCount)]

/-- `JSON.stringify({params, result})` as built inside `consumeTokens`. -/
def paramsResultJson (videoUrl : String) (result : Json) : String :=
  serialize (Json.obj [("params", Json.obj [("videoUrl", Json.str videoUrl)]),
                       ("result", result)])

/-- The handler body of `get_youtube_transcript`, `try`/`catch`/`finally`
included.  `fin` is the `finally` block: it releases one slot exactly
when the `slot` variable is non-null and `this.props?.userId` is set —
the `slot` variable holds whatever object `acquireSlot` returned,
whether or not `acquired` is true. -/
def runGetYoutubeTranscript (env : ToolEnv) (w : World) : RunResult :=
  let fin := fun (slot : Option SemaphoreSlot) (w' : World) (out : ToolOutcome)
      (debits : List (Int × String)) (acq bk : Nat) =>
    match slot, env.userId with
    | some _, some u =>
        { outcome := out, world := { w' with sem := releaseSlot w'.sem u },
          debitCalls := debits, acquireCalls := acq, releaseCalls := 1,
          backendCalls := bk : RunResult }
    | _, _ =>
        { outcome := out, world := w', debitCalls := debits,
          acquireCalls := acq, releaseCalls := 0, backendCalls := bk }
  -- STEP 1: validate URL and resolve the caller
  match env.videoId with
  | none => fin none w (errorOutcome "Invalid YouTube URL format") [] 0 0
  | some videoId =>
  match env.userId with
  | none => fin none w (errorOutcome "User ID not found") [] 0 0
  | some userId =>
  -- STEP 2: check balance
  match checkBalance w.db userId MAX_COST with
  | Except.error e => fin none w (errorOutcome e) [] 0 0
  | Except.ok balanceCheck =>
  if ¬ balanceCheck.sufficient then
    fin none w
      { isError := true,
        text := formatInsufficientTokensError TOOL_NAME
          balanceCheck.currentBalance MAX_COST } [] 0 0
  else
  -- STEP 3.5: check cache
  let cacheKey := hashApifyInput
    [("actorId", Json.str ACTOR_ID),
     ("input", Json.obj [("videoUrl", Json.str env.videoUrl)])]
  match kvGet w.cacheKV (buildCacheKey ACTOR_ID cacheKey) with
  | some cached =>
      (match consumeTokensWithRetry w.db userId FLAT_COST "youtube-transcript"
          TOOL_NAME (paramsResultJson env.videoUrl (cachedToJson cached)) true
          env.actionId env.txId env.timestamp with
      | (Except.error e, db') =>
          fin none { w with db := db' } (errorOutcome e)
            [(FLAT_COST, env.actionId)] 0 0
      | (Except.ok _, db') =>
          let preview :=
            if cached.transcript ≠ "" then cached.transcript.take 2000 else ""
          fin none { w with db := db' }
            { isError := false,
              text := "✅ Transcript (Cached)\n\nVideo: " ++ cached.videoId ++
                "\nWords: " ++ toString cached.wordCount ++ "\n\n" ++
                preview ++ "..." }
            [(FLAT_COST, env.actionId)] 0 0)
  | none =>
  -- STEP 3.7: acquire semaphore (the result is stored in `slot`; the
  -- handler never inspects `acquired`)
  let acqRes := acquireSlot w.sem userId ACTOR_ID env.nowId env.nowTs
  let slot := some acqRes.1
  let w1 := { w with sem := acqRes.2 }
  -- STEP 4: execute Actor
  match env.backend with
  | Except.error e => fin slot w1 (errorOutcome e) [] 1 1
  | Except.ok items =>
  match items.head? with
  | none =>
      fin slot w1
        { isError := true, text := "No transcript available. No tokens charged." }
        [] 1 1
  | some transcript =>
  match transcript.data with
  | none =>
      fin slot w1
        { isError := true, text := "No transcript available. No tokens charged." }
        [] 1 1
  | some tdata =>
  if tdata = [] then
    fin slot w1
      { isError := true, text := "No transcript available. No tokens charged." }
      [] 1 1
  else
  -- STEP 4.4-4.5: format and security processing (oracle chain)
  let redacted := env.redactedOf transcript
  if trimChars redacted = "" then
    fin slot w1
      { isError := true,
        text := "Transcript extraction failed - no valid text found. No tokens charged." }
      [] 1 1
  else
  let finalResult : CachedResult :=
    { videoId := videoId, videoUrl := env.videoUrl, transcript := redacted,
      wordCount := countWords redacted }
  -- STEP 4.7: cache the sanitized result
  let w2 := { w1 with
    cacheKV := kvPut w1.cacheKV (buildCacheKey ACTOR_ID cacheKey) finalResult }
  -- STEP 5: consume tokens
  match consumeTokensWithRetry w2.db userId FLAT_COST "youtube-transcript"
      TOOL_NAME (paramsResultJson env.videoUrl (cachedToJson finalResult)) false
      env.actionId env.txId env.timestamp with
  | (Except.error e, db') =>
      fin slot { w2 with db := db' } (errorOutcome e)
        [(FLAT_COST, env.actionId)] 1 1
  | (Except.ok _, db') =>
      fin slot { w2 with db := db' }
        { isError := false,
          text := "✅ YouTube Transcript\n\nVideo: " ++ videoId ++
            "\nWords: " ++ toString finalResult.wordCount ++ "\n\n" ++
            finalResult.transcript.take 2000 ++ "..." }
        [(FLAT_COST, env.actionId)] 1 1

/-! ## Association-list helper lemmas -/

theorem find?_append_of_none {α : Type} {p : α → Bool} {l1 : List α} (l2 : List α)
    (h : l1.find? p = none) : (l1 ++ l2).find? p = l2.find? p := by
  induction l1 with
  | nil => simp
  | cons a rest ih =>
      cases hp : p a with
      | true => simp [List.find?, hp] at h
      | false =>
          simp only [List.find?, hp] at h
          simpa [List.find?, hp] using ih h

theorem find?_update {users : List (String × UserRow)} {userId : String}
    (row : UserRow) (h : ∃ q, users.find? (fun p => p.1 = userId) = some q) :
    (updateUser users userId row).find? (fun p => p.1 = userId) =
      some (userId, row) := by
  induction users with
  | nil => simp [List.find?] at h
  | cons a rest ih =>
      by_cases ha : a.1 = userId
      · simp [updateUser, List.find?, ha]
      · have hd : (decide (a.1 = userId)) = false := by simp [ha]
        simp only [updateUser, List.map_cons, if_neg ha, List.find?, hd] at h ⊢
        have h2 := ih h
        simpa [updateUser] using h2

/-! ## Claims C7, C10, C3: the balance ledger -/

def emptyDB : DB :=
  { users := [], mcp_actions := [], transactions := [], failed_deductions := [] }

/-- Claim C7, amended: for every userId with no user record,
`checkBalance` does not fail — it returns a normal result with
`sufficient = false` and `currentBalance = 0` (and no `userDeleted`
flag). -/
theorem checkBalance_missing_user (db : DB) (userId : String) (req : Int)
    (h : findUser db userId = none) :
    checkBalance db userId req =
      Except.ok { sufficient := false, currentBalance := 0, required := req,
                  userDeleted := none } := by
  simp [checkBalance, h]

/-- Claim C7, counterexample to the claim as stated: a userId with no
record makes `checkBalance` return a normal (`Except.ok`) result, not a
`UserNotFound` failure. -/
theorem checkBalance_missing_user_counterexample :
    findUser emptyDB "missing-user" = none ∧
    checkBalance emptyDB "missing-user" 3 =
      Except.ok { sufficient := false, currentBalance := 0, required := 3,
                  userDeleted := none } := by
  constructor
  · rfl
  · rfl

/-- Witness for `checkBalance_missing_user` at a concrete input. -/
theorem checkBalance_missing_user_witness :
    checkBalance emptyDB "nobody" 5 =
      Except.ok { sufficient := false, currentBalance := 0, required := 5,
                  userDeleted := none } :=
  checkBalance_missing_user emptyDB "nobody" 5 rfl

/-- Claim C10: for an existing, non-deleted user, a positive amount and
a fresh actionId, `consumeTokens` succeeds and stores
`oldBalance - tokenAmount` with no non-negativity guard, so the stored
balance can become negative. -/
theorem consumeTokens_no_floor (db : DB) (userId : String) {u : UserRow}
    (tokenAmount : Int) (srv tool pj : String) (success : Bool)
    (actionId tid ts : String)
    (hfresh : findAction db actionId = none)
    (huser : findUser db userId = some u)
    (_hdel : u.is_deleted = 0)
    (hpos : 0 < tokenAmount)
    (hu : userId ≠ "") (hs : srv ≠ "") (ht : tool ≠ "") :
    ∃ db', consumeTokens db userId tokenAmount srv tool pj success actionId
        tid ts =
      Except.ok ({ success := true,
                   newBalance := u.current_token_balance - tokenAmount,
                   transactionId := tid, actionId := actionId,
                   alreadyProcessed := some false }, db') ∧
      findUser db' userId =
        some { u with
               current_token_balance := u.current_token_balance - tokenAmount,
               total_tokens_used := u.total_tokens_used + tokenAmount } := by
  have hamt : ¬ tokenAmount ≤ 0 := by omega
  have hval : ¬ (userId = "" ∨ srv = "" ∨ tool = "") := by
    simp [hu, hs, ht]
  simp only [consumeTokens, hfresh, if_neg hamt, if_neg hval, huser]
  refine ⟨_, rfl, ?_⟩
  have hex : ∃ q, db.users.find? (fun p => p.1 = userId) = some q := by
    simp only [findUser, Option.map_eq_some'] at huser
    obtain ⟨q, hq, -⟩ := huser
    exact ⟨q, hq⟩
  simp only [findUser]
  rw [find?_update _ hex]
  rfl

def dbC10 : DB :=
  { users := [("u1", { current_token_balance := 3, total_tokens_used := 0,
                       is_deleted := 0 })],
    mcp_actions := [], transactions := [], failed_deductions := [] }

/-- Witness for `consumeTokens_no_floor`: balance 3, debit 5, stored
balance becomes 3 - 5 = -2 < 0. -/
theorem consumeTokens_no_floor_witness :
    ((3 : Int) - 5 < 0) ∧
    ∃ db', consumeTokens dbC10 "u1" 5 "youtube-transcript"
        "get_youtube_transcript" "pj" true "a1" "t1" "ts" =
      Except.ok ({ success := true, newBalance := (3 : Int) - 5,
                   transactionId := "t1", actionId := "a1",
                   alreadyProcessed := some false }, db') ∧
      findUser db' "u1" =
        some { current_token_balance := (3 : Int) - 5,
               total_tokens_used := (0 : Int) + 5, is_deleted := 0 } :=
  ⟨by decide,
   consumeTokens_no_floor dbC10 "u1" 5 "youtube-transcript"
     "get_youtube_transcript" "pj" true "a1" "t1" "ts" rfl rfl rfl
     (by decide) (by decide) (by decide) (by decide)⟩

/-- Claim C3: a second `consumeTokens` call with the same actionId after
a successful first call mutates nothing (the database comes back
unchanged), is tagged `alreadyProcessed = true`, and reports the same
`newBalance` as the first call. -/
theorem consumeTokens_idempotent (db db1 : DB) (userId : String) (amt : Int)
    (srv tool pj : String) (sc : Bool) (actionId tid ts tid2 ts2 : String)
    (res1 : TokenConsumptionResult)
    (h1 : consumeTokens db userId amt srv tool pj sc actionId tid ts =
      Except.ok (res1, db1)) :
    consumeTokens db1 userId amt srv tool pj sc actionId tid2 ts2 =
      Except.ok ({ success := true, newBalance := res1.newBalance,
                   transactionId := "existing", actionId := actionId,
                   alreadyProcessed := some true }, db1) := by
  cases hA : findAction db actionId with
  | some a =>
      simp only [consumeTokens, hA, Except.ok.injEq, Prod.mk.injEq] at h1
      obtain ⟨hres, hdb⟩ := h1
      subst hdb
      simp only [consumeTokens, hA, ← hres]
  | none =>
      simp only [consumeTokens, hA] at h1
      by_cases hamt : amt ≤ 0
      · simp [if_pos hamt] at h1
      · rw [if_neg hamt] at h1
        by_cases hval : userId = "" ∨ srv = "" ∨ tool = ""
        · simp [if_pos hval] at h1
        · rw [if_neg hval] at h1
          cases hU : findUser db userId with
          | none => simp [hU] at h1
          | some u =>
              simp only [hU, Except.ok.injEq, Prod.mk.injEq] at h1
              obtain ⟨hres, hdb⟩ := h1
              have hA1 : findAction db1 actionId =
                  some { action_id := actionId, user_id := userId,
                         mcp_server_name := srv, tool_name := tool,
                         parameters := pj, tokens_consumed := amt,
                         success := sc, created_at := ts } := by
                subst hdb
                simp only [findAction]
                rw [find?_append_of_none _ hA]
                simp [List.find?]
              have hU1 : findUser db1 userId =
                  some { u with
                         current_token_balance := u.current_token_balance - amt,
                         total_tokens_used := u.total_tokens_used + amt } := by
                subst hdb
                have hex : ∃ q, db.users.find? (fun p => p.1 = userId) = some q := by
                  simp only [findUser, Option.map_eq_some'] at hU
                  obtain ⟨q, hq, -⟩ := hU
                  exact ⟨q, hq⟩
                simp only [findUser]
                rw [find?_update _ hex]
                rfl
              simp only [consumeTokens, hA1, hU1, ← hres]

def dbC3 : DB :=
  { users := [("u1", { current_token_balance := 10, total_tokens_used := 0,
                       is_deleted := 0 })],
    mcp_actions := [], transactions := [], failed_deductions := [] }

def r1C3 : TokenConsumptionResult :=
  { success := true, newBalance := 7, transactionId := "t1",
    actionId := "a9", alreadyProcessed := some false }

def db1C3 : DB :=
  { users := [("u1", { current_token_balance := 7, total_tokens_used := 3,
                       is_deleted := 0 })],
    mcp_actions := [{ action_id := "a9", user_id := "u1",
                      mcp_server_name := "srv", tool_name := "tool",
                      parameters := "pj", tokens_consumed := 3,
                      success := true, created_at := "ts1" }],
    transactions := [{ transaction_id := "t1", user_id := "u1",
                       txType := "usage", token_amount := -3,
                       balance_after := 7, description := "srv: tool",
                       created_at := "ts1" }],
    failed_deductions := [] }

/-- Witness for `consumeTokens_idempotent`: a successful debit of 3 from
balance 10, replayed with the same actionId. -/
theorem consumeTokens_idempotent_witness :
    consumeTokens db1C3 "u1" 3 "srv" "tool" "pj" true "a9" "t2" "ts2" =
      Except.ok ({ success := true, newBalance := r1C3.newBalance,
                   transactionId := "existing", actionId := "a9",
                   alreadyProcessed := some true }, db1C3) :=
  consumeTokens_idempotent dbC3 db1C3 "u1" 3 "srv" "tool" "pj" true "a9"
    "t1" "ts1" "t2" "ts2" r1C3 rfl

/-! ## Claim C8: determinism of the cache hash -/

theorem find?_key_some_mem {l : List (String × Json)} {k : String}
    {q : String × Json} (h : l.find? (fun p => p.1 = k) = some q) :
    q ∈ l ∧ q.1 = k := by
  have hm := List.mem_of_find?_eq_some h
  have hp := List.find?_some h
  simp only [decide_eq_true_eq] at hp
  exact ⟨hm, hp⟩

theorem mem_find?_key {l : List (String × Json)} {q : String × Json}
    (hnd : (l.map Prod.fst).Nodup) (hq : q ∈ l) :
    l.find? (fun p => p.1 = q.1) = some q := by
  induction l with
  | nil => simp at hq
  | cons a rest ih =>
      rw [List.map_cons, List.nodup_cons] at hnd
      rcases List.mem_cons.1 hq with rfl | hmem
      · simp [List.find?]
      · have ha : ¬ a.1 = q.1 := by
          intro he
          have hmap : q.1 ∈ rest.map Prod.fst := List.mem_map_of_mem _ hmem
          rw [← he] at hmap
          exact hnd.1 hmap
        have hd : (decide (a.1 = q.1)) = false := by simp [ha]
        simp only [List.find?, hd]
        exact ih hnd.2 hmem

theorem char_toNat_inj {a b : Char} (h : a.toNat = b.toNat) : a = b := by
  have h2 := congrArg Char.ofNat h
  rwa [Char.ofNat_toNat, Char.ofNat_toNat] at h2

theorem strLeChars_total : ∀ a b, strLeChars a b = true ∨ strLeChars b a = true := by
  intro a
  induction a with
  | nil => intro b; exact Or.inl rfl
  | cons x xs ih =>
      intro b
      cases b with
      | nil => exact Or.inr rfl
      | cons y ys =>
          by_cases h : x.toNat = y.toNat
          · rcases ih ys with h1 | h1
            · exact Or.inl (by simp [strLeChars, h, h1])
            · exact Or.inr (by simp [strLeChars, h.symm, h1])
          · rcases Nat.lt_or_ge x.toNat y.toNat with hlt | hge
            · exact Or.inl (by simp [strLeChars, h, hlt])
            · have hgt : y.toNat < x.toNat := by omega
              have h' : ¬ y.toNat = x.toNat := by omega
              exact Or.inr (by simp [strLeChars, h', hgt])

theorem strLeChars_trans : ∀ a b c, strLeChars a b = true →
    strLeChars b c = true → strLeChars a c = true := by
  intro a
  induction a with
  | nil => intro b c _ _; rfl
  | cons x xs ih =>
      intro b c hab hbc
      cases b with
      | nil => simp [strLeChars] at hab
      | cons y ys =>
          cases c with
          | nil => simp [strLeChars] at hbc
          | cons z zs =>
              simp only [strLeChars] at hab hbc ⊢
              by_cases hxy : x.toNat = y.toNat
              · rw [if_pos hxy] at hab
                by_cases hyz : y.toNat = z.toNat
                · rw [if_pos hyz] at hbc
                  rw [if_pos (hxy.trans hyz)]
                  exact ih ys zs hab hbc
                · rw [if_neg hyz] at hbc
                  have hlt : y.toNat < z.toNat := of_decide_eq_true hbc
                  have hne : ¬ x.toNat = z.toNat := by omega
                  rw [if_neg hne]
                  exact decide_eq_true (by omega)
              · rw [if_neg hxy] at hab
                have hlt : x.toNat < y.toNat := of_decide_eq_true hab
                by_cases hyz : y.toNat = z.toNat
                · have hne : ¬ x.toNat = z.toNat := by omega
                  rw [if_neg hne]
                  exact decide_eq_true (by omega)
                · rw [if_neg hyz] at hbc
                  have hlt2 : y.toNat < z.toNat := of_decide_eq_true hbc
                  have hne : ¬ x.toNat = z.toNat := by omega
                  rw [if_neg hne]
                  exact decide_eq_true (by omega)

theorem strLeChars_antisymm : ∀ a b, strLeChars a b = true →
    strLeChars b a = true → a = b := by
  intro a
  induction a with
  | nil =>
      intro b hab hba
      cases b with
      | nil => rfl
      | cons y ys => simp [strLeChars] at hba
  | cons x xs ih =>
      intro b hab hba
      cases b with
      | nil => simp [strLeChars] at hab
      | cons y ys =>
          simp only [strLeChars] at hab hba
          by_cases hxy : x.toNat = y.toNat
          · rw [if_pos hxy] at hab
            rw [if_pos hxy.symm] at hba
            rw [char_toNat_inj hxy, ih ys hab hba]
          · rw [if_neg hxy] at hab
            have h1 : x.toNat < y.toNat := of_decide_eq_true hab
            have hyx : ¬ y.toNat = x.toNat := by omega
            rw [if_neg hyx] at hba
            have h2 : y.toNat < x.toNat := of_decide_eq_true hba
            omega

instance : IsTotal String jsStrLe :=
  ⟨fun a b => strLeChars_total a.data b.data⟩

instance : IsTrans String jsStrLe :=
  ⟨fun a b c => strLeChars_trans a.data b.data c.data⟩

instance : IsAntisymm String jsStrLe :=
  ⟨fun a b hab hba => String.ext (strLeChars_antisymm a.data b.data hab hba)⟩

theorem jsIndex_perm {l1 l2 : List (String × Json)} (hperm : l1.Perm l2)
    (hnd : (l1.map Prod.fst).Nodup) (k : String) :
    jsIndex l1 k = jsIndex l2 k := by
  cases h1 : l1.find? (fun p => p.1 = k) with
  | some q =>
      obtain ⟨hq, hk⟩ := find?_key_some_mem h1
      have hq2 : q ∈ l2 := hperm.mem_iff.1 hq
      have hnd2 : (l2.map Prod.fst).Nodup := ((hperm.map Prod.fst).nodup_iff).1 hnd
      have h2 : l2.find? (fun p => p.1 = q.1) = some q := mem_find?_key hnd2 hq2
      rw [hk] at h2
      simp [jsIndex, h1, h2]
  | none =>
      have hall := List.find?_eq_none.1 h1
      have h2 : l2.find? (fun p => p.1 = k) = none :=
        List.find?_eq_none.2 (fun p hp => hall p (hperm.mem_iff.2 hp))
      simp [jsIndex, h1, h2]

/-- Claim C8, amended: the digest is independent of the TOP-LEVEL key
insertion order — any top-level permutation of the fields (with the
usual unique object keys) hashes identically.  (Nested object key order
is NOT canonicalized; see the counterexample.) -/
theorem hashApifyInput_perm {l1 l2 : List (String × Json)}
    (hperm : l1.Perm l2) (hnd : (l1.map Prod.fst).Nodup) :
    hashApifyInput l1 = hashApifyInput l2 := by
  have hkeys : sortedKeysOf l1 = sortedKeysOf l2 := by
    have hkp : (List.insertionSort jsStrLe (l1.map Prod.fst)).Perm
        (List.insertionSort jsStrLe (l2.map Prod.fst)) :=
      ((List.perm_insertionSort _ _).trans (hperm.map Prod.fst)).trans
        (List.perm_insertionSort _ _).symm
    exact List.eq_of_perm_of_sorted hkp
      (List.sorted_insertionSort _ _) (List.sorted_insertionSort _ _)
  have hidx : ∀ k, jsIndex l1 k = jsIndex l2 k := jsIndex_perm hperm hnd
  have hmap : (sortedKeysOf l2).map (fun k => (k, jsIndex l1 k)) =
      (sortedKeysOf l2).map (fun k => (k, jsIndex l2 k)) :=
    List.map_congr_left (fun k _ => by rw [hidx k])
  simp only [hashApifyInput, hkeys, hmap]

/-- Witness for `hashApifyInput_perm`: the spec's own example,
`hash({a:1,b:2}) = hash({b:2,a:1})`. -/
theorem hashApifyInput_perm_witness :
    hashApifyInput [("a", Json.num 1), ("b", Json.num 2)] =
      hashApifyInput [("b", Json.num 2), ("a", Json.num 1)] :=
  hashApifyInput_perm (List.Perm.swap ("b", Json.num 2) ("a", Json.num 1) [])
    (by decide)

def nestedA : List (String × Json) :=
  [("a", Json.obj [("x", Json.num 1), ("y", Json.num 2)])]

def nestedB : List (String × Json) :=
  [("a", Json.obj [("y", Json.num 2), ("x", Json.num 1)])]

/-- Claim C8, counterexample to the claim as stated: `nestedA` and
`nestedB` carry the same content — the single top-level field "a" maps
to objects that are permutations of each other (equal contents, only
the NESTED key insertion order differs) — yet their digests differ,
because the source sorts only the top-level keys before serializing. -/
theorem hashApifyInput_nested_counterexample :
    ([("x", Json.num 1), ("y", Json.num 2)] : List (String × Json)).Perm
      [("y", Json.num 2), ("x", Json.num 1)] ∧
    nestedA = [("a", Json.obj [("x", Json.num 1), ("y", Json.num 2)])] ∧
    nestedB = [("a", Json.obj [("y", Json.num 2), ("x", Json.num 1)])] ∧
    hashApifyInput nestedA ≠ hashApifyInput nestedB := by
  exact ⟨List.Perm.swap _ _ _, rfl, rfl, by decide⟩

/-! ## Claim C6: what `releaseSlot` removes -/

theorem mapDelete_of_find? {l : List (String × SlotInfo)} {userId : String}
    {q : String × SlotInfo} (hnd : (l.map Prod.fst).Nodup)
    (hfind : l.find? (fun p => p.2.userId = userId) = some q) :
    mapDelete l q.1 = l.eraseP (fun p => p.2.userId = userId) ∧
    (mapDelete l q.1).length = l.length - 1 := by
  induction l with
  | nil => simp [List.find?] at hfind
  | cons a rest ih =>
      rw [List.map_cons, List.nodup_cons] at hnd
      by_cases hp : a.2.userId = userId
      · have hda : (decide (a.2.userId = userId)) = true := by simp [hp]
        simp only [List.find?, hda, Option.some.injEq] at hfind
        subst hfind
        have hrest : List.filter (fun p => !decide (p.1 = a.1)) rest = rest := by
          rw [List.filter_eq_self]
          intro b hb
          have hbk : b.1 ∈ rest.map Prod.fst := List.mem_map_of_mem _ hb
          have hb1 : ¬ b.1 = a.1 := fun he => hnd.1 (he ▸ hbk)
          simpa using hb1
        constructor
        · simp [mapDelete, List.filter_cons, List.eraseP_cons, hda, hrest]
        · simp [mapDelete, List.filter_cons, hrest]
      · have hda : (decide (a.2.userId = userId)) = false := by simp [hp]
        simp only [List.find?, hda] at hfind
        have hq : q ∈ rest := List.mem_of_find?_eq_some hfind
        have hqk : q.1 ∈ rest.map Prod.fst := List.mem_map_of_mem _ hq
        have hak : ¬ a.1 = q.1 := fun he => hnd.1 (he ▸ hqk)
        have hlen : 1 ≤ rest.length := List.length_pos.2 (List.ne_nil_of_mem hq)
        obtain ⟨ih1, ih2⟩ := ih hnd.2 hfind
        have hka : (!decide (a.1 = q.1)) = true := by simpa using hak
        constructor
        · simp only [mapDelete, decide_not] at ih1 ⊢
          simp only [List.filter_cons, hka, if_true, List.eraseP_cons, hda,
            cond_false, ih1]
        · simp only [mapDelete, decide_not] at ih2 ⊢
          simp only [List.filter_cons, hka, if_true, List.length_cons, ih2]
          omega

/-- Claim C6, amended: when the user owns at least one slot (slot ids
being unique, as a Map guarantees), `releaseSlot` removes exactly one
slot — the FIRST-inserted (i.e. oldest, not the most recent) slot owned
by that user in registry insertion order — and decrements the counter,
floored at zero; the returned state is the state that gets persisted. -/
theorem releaseSlot_removes_oldest (s : SemState) (userId : String)
    (hnd : (semKeys s).Nodup) (q : String × SlotInfo)
    (hfind : s.slotRegistry.find? (fun p => p.2.userId = userId) = some q) :
    releaseSlot s userId =
      { activeSlots := max 0 (s.activeSlots - 1),
        slotRegistry := s.slotRegistry.eraseP (fun p => p.2.userId = userId) } ∧
    (releaseSlot s userId).slotRegistry.length =
      s.slotRegistry.length - 1 := by
  obtain ⟨qk, qv⟩ := q
  obtain ⟨h1, h2⟩ := mapDelete_of_find? hnd hfind
  constructor
  · simp only [releaseSlot, hfind]
    rw [h1]
  · simp only [releaseSlot, hfind]
    exact h2

def semC6 : SemState :=
  { activeSlots := 2,
    slotRegistry :=
      [("u-1", { userId := "u", actorId := "act", timestamp := 1 }),
       ("u-2", { userId := "u", actorId := "act", timestamp := 2 })] }

/-- Claim C6, counterexample to the claim as stated: user "u" owns two
slots, acquired at timestamps 1 and 2.  `releaseSlot` keeps the MOST
RECENT slot ("u-2", timestamp 2) and removes the oldest ("u-1"), so it
does not remove the most recent slot owned by the user. -/
theorem releaseSlot_most_recent_counterexample :
    (releaseSlot semC6 "u").slotRegistry =
      [("u-2", { userId := "u", actorId := "act", timestamp := 2 })] ∧
    (releaseSlot semC6 "u").activeSlots = 1 := by
  decide

/-- Witness for `releaseSlot_removes_oldest` at the concrete two-slot
state. -/
theorem releaseSlot_removes_oldest_witness :
    releaseSlot semC6 "u" =
      { activeSlots := max 0 ((2 : Int) - 1),
        slotRegistry := semC6.slotRegistry.eraseP
          (fun p => p.2.userId = "u") } ∧
    (releaseSlot semC6 "u").slotRegistry.length =
      semC6.slotRegistry.length - 1 :=
  releaseSlot_removes_oldest semC6 "u" (by decide)
    ("u-1", { userId := "u", actorId := "act", timestamp := 1 }) (by decide)


/-! ## Claim C2: the semaphore counter/registry invariant -/

/-- The invariant of claim C2, together with the uniqueness of registry
keys that the `Map` maintains. -/
def SemInv (s : SemState) : Prop :=
  s.activeSlots = (s.slotRegistry.length : Int) ∧
  s.activeSlots ≤ MAX_SLOTS ∧ (semKeys s).Nodup

theorem mapDelete_mem_length {m : List (String × SlotInfo)}
    {p : String × SlotInfo} (hnd : (m.map Prod.fst).Nodup) (hp : p ∈ m) :
    (mapDelete m p.1).length + 1 = m.length := by
  induction m with
  | nil => simp at hp
  | cons a rest ih =>
      rw [List.map_cons, List.nodup_cons] at hnd
      rcases List.mem_cons.1 hp with rfl | hmem
      · have hrest : List.filter (fun q => !decide (q.1 = p.1)) rest = rest := by
          rw [List.filter_eq_self]
          intro b hb
          have hb1 : ¬ b.1 = p.1 :=
            fun he => hnd.1 (he ▸ List.mem_map_of_mem Prod.fst hb)
          simpa using hb1
        simp [mapDelete, List.filter_cons, hrest]
      · have hak : ¬ a.1 = p.1 :=
          fun he => hnd.1 (he ▸ List.mem_map_of_mem Prod.fst hmem)
        have hih := ih hnd.2 hmem
        simp only [mapDelete, decide_not] at hih
        have hka : (!decide (a.1 = p.1)) = true := by simpa using hak
        simp only [mapDelete, decide_not, List.filter_cons, hka, if_true,
          List.length_cons]
        omega

theorem mapSet_not_mem {m : List (String × SlotInfo)} {k : String}
    (v : SlotInfo) (h : k ∉ m.map Prod.fst) : mapSet m k v = m ++ [(k, v)] := by
  rw [mapSet, if_neg]
  intro hany
  rw [List.any_eq_true] at hany
  obtain ⟨p, hp, hpk⟩ := hany
  rw [decide_eq_true_eq] at hpk
  exact h (hpk ▸ List.mem_map_of_mem Prod.fst hp)

theorem acquireSlot_inv {s : SemState} {u a : String} {nId nTs : Nat}
    (hI : SemInv s) (hfresh : (u ++ "-" ++ toString nId) ∉ semKeys s) :
    SemInv (acquireSlot s u a nId nTs).2 ∧
    ∀ k ∈ semKeys (acquireSlot s u a nId nTs).2,
      k ∈ (u ++ "-" ++ toString nId) :: semKeys s := by
  by_cases hcap : s.activeSlots ≥ MAX_SLOTS
  · simp only [acquireSlot, if_pos hcap]
    exact ⟨hI, fun k hk => List.mem_cons_of_mem _ hk⟩
  · obtain ⟨h1, h2, h3⟩ := hI
    have hcap' : ¬ s.activeSlots ≥ 32 := hcap
    simp only [acquireSlot, if_neg hcap]
    rw [mapSet_not_mem _ hfresh]
    refine ⟨⟨?_, ?_, ?_⟩, ?_⟩
    · show s.activeSlots + 1 =
        ((s.slotRegistry ++ [(u ++ "-" ++ toString nId,
          ({ userId := u, actorId := a, timestamp := nTs } : SlotInfo))]).length : Int)
      rw [List.length_append]
      simp only [List.length_cons, List.length_nil]
      omega
    · show s.activeSlots + 1 ≤ MAX_SLOTS
      show s.activeSlots + 1 ≤ 32
      omega
    · show ((s.slotRegistry ++ [(u ++ "-" ++ toString nId,
        ({ userId := u, actorId := a, timestamp := nTs } : SlotInfo))]).map Prod.fst).Nodup
      rw [List.map_append, List.nodup_append]
      refine ⟨h3, List.nodup_singleton _, ?_⟩
      intro x hx hx1
      simp only [List.map_cons, List.map_nil, List.mem_singleton] at hx1
      exact hfresh (hx1 ▸ hx)
    · intro k hk
      have hk' : k ∈ (s.slotRegistry ++ [(u ++ "-" ++ toString nId,
          ({ userId := u, actorId := a, timestamp := nTs } : SlotInfo))]).map Prod.fst := hk
      rw [List.map_append, List.mem_append] at hk'
      rcases hk' with hk1 | hk1
      · exact List.mem_cons_of_mem _ hk1
      · simp only [List.map_cons, List.map_nil, List.mem_singleton] at hk1
        exact hk1 ▸ List.mem_cons_self _ _

theorem releaseSlot_inv {s : SemState} (u : String) (hI : SemInv s) :
    SemInv (releaseSlot s u) ∧
    ∀ k ∈ semKeys (releaseSlot s u), k ∈ semKeys s := by
  cases hf : s.slotRegistry.find? (fun p => p.2.userId = u) with
  | none =>
      simp only [releaseSlot, hf]
      exact ⟨hI, fun k hk => hk⟩
  | some q =>
      obtain ⟨qk, qv⟩ := q
      simp only [releaseSlot, hf]
      obtain ⟨h1, h2, h3⟩ := hI
      have hmemq : (qk, qv) ∈ s.slotRegistry := List.mem_of_find?_eq_some hf
      have hlen : (mapDelete s.slotRegistry qk).length + 1 =
          s.slotRegistry.length := mapDelete_mem_length h3 hmemq
      have hsub : (mapDelete s.slotRegistry qk).Sublist s.slotRegistry :=
        List.filter_sublist _
      have hkeysub : ((mapDelete s.slotRegistry qk).map Prod.fst).Sublist
          (s.slotRegistry.map Prod.fst) := hsub.map Prod.fst
      have h2' : s.activeSlots ≤ 32 := h2
      refine ⟨⟨?_, ?_, ?_⟩, ?_⟩
      · show max 0 (s.activeSlots - 1) =
          ((mapDelete s.slotRegistry qk).length : Int)
        omega
      · show max 0 (s.activeSlots - 1) ≤ 32
        omega
      · exact h3.sublist hkeysub
      · exact fun k hk => hkeysub.subset hk

theorem cleanup_fold_inv (now : Nat) (l : List (String × SlotInfo)) :
    ∀ acc : Nat × SemState,
      (∀ p ∈ l, p ∈ acc.2.slotRegistry) →
      (l.map Prod.fst).Nodup →
      SemInv acc.2 →
      SemInv (l.foldl (cleanupStep now) acc).2 ∧
      (l.foldl (cleanupStep now) acc).2.slotRegistry.Sublist
        acc.2.slotRegistry := by
  induction l with
  | nil => exact fun acc _ _ hI => ⟨hI, List.Sublist.refl _⟩
  | cons p rest ih =>
      intro acc hmem hnd hI
      rw [List.map_cons, List.nodup_cons] at hnd
      rw [List.foldl_cons]
      by_cases hstale : now - p.2.timestamp > STALE_THRESHOLD
      · have hp : p ∈ acc.2.slotRegistry := hmem p (List.mem_cons_self p rest)
        have hlen : (mapDelete acc.2.slotRegistry p.1).length + 1 =
            acc.2.slotRegistry.length := mapDelete_mem_length hI.2.2 hp
        have hsub : (mapDelete acc.2.slotRegistry p.1).Sublist
            acc.2.slotRegistry := List.filter_sublist _
        have hstep : cleanupStep now acc p =
            (acc.1 + 1, { activeSlots := max 0 (acc.2.activeSlots - 1),
                          slotRegistry := mapDelete acc.2.slotRegistry p.1 }) := by
          simp [cleanupStep, hstale]
        have hI' : SemInv (cleanupStep now acc p).2 := by
          rw [hstep]
          obtain ⟨h1, h2, h3⟩ := hI
          have h2' : acc.2.activeSlots ≤ 32 := h2
          refine ⟨?_, ?_, ?_⟩
          · show max 0 (acc.2.activeSlots - 1) =
              ((mapDelete acc.2.slotRegistry p.1).length : Int)
            omega
          · show max 0 (acc.2.activeSlots - 1) ≤ 32
            omega
          · exact h3.sublist (hsub.map Prod.fst)
        have hmem' : ∀ q ∈ rest, q ∈ (cleanupStep now acc p).2.slotRegistry := by
          intro q hq
          rw [hstep]
          have hqmem : q ∈ acc.2.slotRegistry :=
            hmem q (List.mem_cons_of_mem _ hq)
          have hqk : ¬ q.1 = p.1 :=
            fun he => hnd.1 (he ▸ List.mem_map_of_mem Prod.fst hq)
          show q ∈ mapDelete acc.2.slotRegistry p.1
          rw [mapDelete, List.mem_filter]
          exact ⟨hqmem, by simpa using hqk⟩
        obtain ⟨hIf, hsubf⟩ := ih (cleanupStep now acc p) hmem' hnd.2 hI'
        refine ⟨hIf, hsubf.trans ?_⟩
        rw [hstep]
        exact hsub
      · have hstep : cleanupStep now acc p = acc := by
          simp [cleanupStep, hstale]
        rw [hstep]
        exact ih acc (fun q hq => hmem q (List.mem_cons_of_mem _ hq)) hnd.2 hI

theorem cleanupStaleSlots_inv {s : SemState} (now : Nat) (hI : SemInv s) :
    SemInv (cleanupStaleSlots s now).2 ∧
    ∀ k ∈ semKeys (cleanupStaleSlots s now).2, k ∈ semKeys s := by
  have h := cleanup_fold_inv now s.slotRegistry (0, s) (fun p hp => hp)
    hI.2.2 hI
  rw [cleanupStaleSlots]
  exact ⟨h.1, fun k hk => ((h.2.map Prod.fst).subset) hk⟩

theorem runSemOps_cons (s : SemState) (op : SemOp) (ops : List SemOp) :
    runSemOps s (op :: ops) = runSemOps (applySemOp s op) ops := rfl

theorem runSemOps_inv (ops : List SemOp) :
    ∀ (s : SemState) (used : List String),
      SemInv s → (∀ k ∈ semKeys s, k ∈ used) →
      (used ++ acquireIds ops).Nodup →
      SemInv (runSemOps s ops) := by
  induction ops with
  | nil => exact fun s _ hI _ _ => hI
  | cons op rest ih =>
      intro s used hI hsub hnd
      rw [runSemOps_cons]
      cases op with
      | acquire u a nId nTs =>
          have hperm : (used ++ (u ++ "-" ++ toString nId) ::
              acquireIds rest).Perm
              (((u ++ "-" ++ toString nId) :: used) ++ acquireIds rest) :=
            List.perm_middle
          have hnd0 : (used ++ (u ++ "-" ++ toString nId) ::
              acquireIds rest).Nodup := by
            simpa [acquireIds] using hnd
          have hnd' : (((u ++ "-" ++ toString nId) :: used) ++
              acquireIds rest).Nodup := hperm.nodup_iff.1 hnd0
          have hid : (u ++ "-" ++ toString nId) ∉ used := by
            have hcons : ((u ++ "-" ++ toString nId) ::
                (used ++ acquireIds rest)).Nodup := hnd'
            intro hmem
            exact (List.nodup_cons.1 hcons).1
              (List.mem_append.2 (Or.inl hmem))
          have hfresh : (u ++ "-" ++ toString nId) ∉ semKeys s :=
            fun hk => hid (hsub _ hk)
          obtain ⟨hI', hkeys'⟩ := acquireSlot_inv hI hfresh
          refine ih _ ((u ++ "-" ++ toString nId) :: used) hI' ?_ ?_
          · intro k hk
            rcases List.mem_cons.1 (hkeys' k hk) with hk1 | hk1
            · exact hk1 ▸ List.mem_cons_self _ _
            · exact List.mem_cons_of_mem _ (hsub k hk1)
          · exact hnd'
      | release u =>
          obtain ⟨hI', hkeys'⟩ := releaseSlot_inv u hI
          refine ih _ used hI' (fun k hk => hsub k (hkeys' k hk)) ?_
          simpa [acquireIds] using hnd
      | cleanup n =>
          obtain ⟨hI', hkeys'⟩ := cleanupStaleSlots_inv n hI
          refine ih _ used hI' (fun k hk => hsub k (hkeys' k hk)) ?_
          simpa [acquireIds] using hnd

/-- Claim C2, amended: the equality `activeSlots = registry.size` holds
after every sequence of acquire/release/cleanup operations from the
empty state PROVIDED the generated slot ids (`userId + "-" + Date.now()`)
are pairwise distinct (two acquires by one user in the same millisecond
break it, see the counterexample); the bounds `0 ≤ activeSlots ≤ 32`
hold as stated. -/
theorem semaphore_invariant (ops : List SemOp)
    (h : (acquireIds ops).Nodup) :
    (runSemOps initSem ops).activeSlots =
      ((runSemOps initSem ops).slotRegistry.length : Int) ∧
    0 ≤ (runSemOps initSem ops).activeSlots ∧
    (runSemOps initSem ops).activeSlots ≤ 32 := by
  have hI : SemInv (runSemOps initSem ops) := by
    refine runSemOps_inv ops initSem [] ?_ ?_ ?_
    · exact ⟨by simp [initSem], by simp [initSem, MAX_SLOTS],
        by simp [initSem, semKeys]⟩
    · intro k hk
      simp [initSem, semKeys] at hk
    · simpa using h
  have h32 : (runSemOps initSem ops).activeSlots ≤ 32 := hI.2.1
  refine ⟨hI.1, ?_, h32⟩
  rw [hI.1]
  exact Int.natCast_nonneg _

/-- Witness for `semaphore_invariant` on a concrete trace: two distinct
users acquire, one releases, then a cleanup runs. -/
theorem semaphore_invariant_witness :
    ((acquireIds [SemOp.acquire "alice" "act" 1 1,
        SemOp.acquire "bob" "act" 2 2, SemOp.release "alice",
        SemOp.cleanup 1000]).Nodup) ∧
    ((runSemOps initSem [SemOp.acquire "alice" "act" 1 1,
        SemOp.acquire "bob" "act" 2 2, SemOp.release "alice",
        SemOp.cleanup 1000]).activeSlots =
      ((runSemOps initSem [SemOp.acquire "alice" "act" 1 1,
        SemOp.acquire "bob" "act" 2 2, SemOp.release "alice",
        SemOp.cleanup 1000]).slotRegistry.length : Int) ∧
    0 ≤ (runSemOps initSem [SemOp.acquire "alice" "act" 1 1,
        SemOp.acquire "bob" "act" 2 2, SemOp.release "alice",
        SemOp.cleanup 1000]).activeSlots ∧
    (runSemOps initSem [SemOp.acquire "alice" "act" 1 1,
        SemOp.acquire "bob" "act" 2 2, SemOp.release "alice",
        SemOp.cleanup 1000]).activeSlots ≤ 32) :=
  ⟨by decide,
   semaphore_invariant [SemOp.acquire "alice" "act" 1 1,
     SemOp.acquire "bob" "act" 2 2, SemOp.release "alice",
     SemOp.cleanup 1000] (by decide)⟩

/-- Claim C2, counterexample to the claim as stated: two acquires by the
same user in the same millisecond generate the same slot id (`"u-5"`),
so `Map.set` overwrites the first registry entry while the counter is
incremented twice — after this two-operation sequence from the empty
state the counter is 2 but the registry has size 1. -/
theorem semaphore_invariant_counterexample :
    (runSemOps initSem [SemOp.acquire "u" "act" 5 5,
        SemOp.acquire "u" "act" 5 5]).activeSlots = 2 ∧
    (runSemOps initSem [SemOp.acquire "u" "act" 5 5,
        SemOp.acquire "u" "act" 5 5]).slotRegistry.length = 1 := by
  decide

/-! ## Claim C5: cache hit never touches the semaphore -/

/-- Claim C5: when the handler reaches the cache lookup and it hits,
`acquireSlot` is never invoked, no release happens, and the semaphore
state is untouched — the hit path returns before any semaphore
interaction. -/
theorem cache_hit_no_acquire (env : ToolEnv) (w : World) (v u : String)
    (bc : BalanceCheckResult) (c : CachedResult)
    (hvid : env.videoId = some v) (huid : env.userId = some u)
    (hbal : checkBalance w.db u MAX_COST = Except.ok bc)
    (hsuff : bc.sufficient = true)
    (hhit : kvGet w.cacheKV (buildCacheKey ACTOR_ID (hashApifyInput
      [("actorId", Json.str ACTOR_ID),
       ("input", Json.obj [("videoUrl", Json.str env.videoUrl)])])) = some c) :
    (runGetYoutubeTranscript env w).acquireCalls = 0 ∧
    (runGetYoutubeTranscript env w).releaseCalls = 0 ∧
    (runGetYoutubeTranscript env w).world.sem = w.sem := by
  rcases hcall : consumeTokensWithRetry w.db u FLAT_COST "youtube-transcript"
      TOOL_NAME (paramsResultJson env.videoUrl (cachedToJson c)) true
      env.actionId env.txId env.timestamp with ⟨exc, db2⟩
  cases exc with
  | error e =>
      simp [runGetYoutubeTranscript, hvid, huid, hbal, hsuff, hhit, hcall]
  | ok res =>
      simp [runGetYoutubeTranscript, hvid, huid, hbal, hsuff, hhit, hcall]


def dbC5 : DB :=
  { users := [("u1", { current_token_balance := 10, total_tokens_used := 0,
                       is_deleted := 0 })],
    mcp_actions := [], transactions := [], failed_deductions := [] }

def cachedC5 : CachedResult :=
  { videoId := "vid1", videoUrl := "https://youtu.be/vid1",
    transcript := "hello there", wordCount := 2 }

def envC5 : ToolEnv :=
  { videoUrl := "https://youtu.be/vid1", videoId := some "vid1",
    userId := some "u1", backend := Except.error "unreached",
    redactedOf := fun _ => "", nowId := 1, nowTs := 1, actionId := "a5",
    txId := "t5", timestamp := "ts5" }

def worldC5 : World :=
  { db := dbC5,
    cacheKV := [(buildCacheKey ACTOR_ID (hashApifyInput
      [("actorId", Json.str ACTOR_ID),
       ("input", Json.obj [("videoUrl", Json.str "https://youtu.be/vid1")])]),
      cachedC5)],
    sem := initSem }

set_option maxRecDepth 100000 in
/-- Witness for `cache_hit_no_acquire` at a concrete hit. -/
theorem cache_hit_no_acquire_witness :
    (runGetYoutubeTranscript envC5 worldC5).acquireCalls = 0 ∧
    (runGetYoutubeTranscript envC5 worldC5).releaseCalls = 0 ∧
    (runGetYoutubeTranscript envC5 worldC5).world.sem = worldC5.sem :=
  cache_hit_no_acquire envC5 worldC5 "vid1" "u1"
    { sufficient := true, currentBalance := 10, required := 3,
      userDeleted := some false } cachedC5 rfl rfl rfl rfl (by decide)

/-! ## Claim C4: no usable result ⇒ no debit -/

/-- Claim C4: on the cache-miss path, every outcome that produces no
usable result — a thrown backend error, an empty or absent dataset
item, an absent/non-array/empty `data` field, or text that is empty
after the sanitize/redact chain — invokes no debit at all: the call
list is empty and the database is unchanged (zero tokens charged). -/
theorem no_usable_result_no_debit (env : ToolEnv) (w : World) (v u : String)
    (bc : BalanceCheckResult)
    (hvid : env.videoId = some v) (huid : env.userId = some u)
    (hbal : checkBalance w.db u MAX_COST = Except.ok bc)
    (hsuff : bc.sufficient = true)
    (hmiss : kvGet w.cacheKV (buildCacheKey ACTOR_ID (hashApifyInput
      [("actorId", Json.str ACTOR_ID),
       ("input", Json.obj [("videoUrl", Json.str env.videoUrl)])])) = none)
    (hnouse :
      (∃ e, env.backend = Except.error e) ∨
      (∃ items, env.backend = Except.ok items ∧ items.head? = none) ∨
      (∃ items t, env.backend = Except.ok items ∧ items.head? = some t ∧
        t.data = none) ∨
      (∃ items t, env.backend = Except.ok items ∧ items.head? = some t ∧
        t.data = some []) ∨
      (∃ items t d, env.backend = Except.ok items ∧ items.head? = some t ∧
        t.data = some d ∧ d ≠ [] ∧ trimChars (env.redactedOf t) = "")) :
    (runGetYoutubeTranscript env w).debitCalls = [] ∧
    (runGetYoutubeTranscript env w).world.db = w.db ∧
    (runGetYoutubeTranscript env w).outcome.isError = true := by
  rcases hnouse with ⟨e, hb⟩ | ⟨items, hb, hh⟩ | ⟨items, t, hb, hh, hd⟩ |
    ⟨items, t, hb, hh, hd⟩ | ⟨items, t, d, hb, hh, hd, hne, hred⟩
  · simp [runGetYoutubeTranscript, hvid, huid, hbal, hsuff, hmiss, hb,
      errorOutcome]
  · simp [runGetYoutubeTranscript, hvid, huid, hbal, hsuff, hmiss, hb, hh,
      errorOutcome]
  · simp [runGetYoutubeTranscript, hvid, huid, hbal, hsuff, hmiss, hb, hh,
      hd, errorOutcome]
  · simp [runGetYoutubeTranscript, hvid, huid, hbal, hsuff, hmiss, hb, hh,
      hd, errorOutcome]
  · simp [runGetYoutubeTranscript, hvid, huid, hbal, hsuff, hmiss, hb, hh,
      hd, if_neg hne, hred, errorOutcome]

def dbC4 : DB :=
  { users := [("u1", { current_token_balance := 10, total_tokens_used := 0,
                       is_deleted := 0 })],
    mcp_actions := [], transactions := [], failed_deductions := [] }

def envC4 : ToolEnv :=
  { videoUrl := "https://youtu.be/vidY", videoId := some "vidY",
    userId := some "u1", backend := Except.ok [],
    redactedOf := fun _ => "x", nowId := 7, nowTs := 7, actionId := "a4",
    txId := "t4", timestamp := "ts4" }

def worldC4 : World := { db := dbC4, cacheKV := [], sem := initSem }

set_option maxRecDepth 100000 in
/-- Witness for `no_usable_result_no_debit`: the backend returns an
empty dataset. -/
theorem no_usable_result_no_debit_witness :
    (runGetYoutubeTranscript envC4 worldC4).debitCalls = [] ∧
    (runGetYoutubeTranscript envC4 worldC4).world.db = worldC4.db ∧
    (runGetYoutubeTranscript envC4 worldC4).outcome.isError = true :=
  no_usable_result_no_debit envC4 worldC4 "vidY" "u1"
    { sufficient := true, currentBalance := 10, required := 3,
      userDeleted := some false } rfl rfl rfl rfl rfl
    (Or.inr (Or.inl ⟨[], rfl, rfl⟩))

/-! ## Claim C9: a refused acquisition is still "released" -/

/-- Claim C9: on a cache miss with the semaphore at capacity,
`acquireSlot` returns the refusal object (`acquired = false`), the
`slot` variable holds it (truthy), so the `finally` block still calls
`releaseSlot(userId)` exactly once, whatever the backend does; the
final semaphore state is `releaseSlot` applied to the untouched
pre-call state — and when the user owns another in-flight slot (unique
slot ids), that slot is removed by the stray release. -/
theorem refused_slot_still_released (env : ToolEnv) (w : World) (v u : String)
    (bc : BalanceCheckResult)
    (hvid : env.videoId = some v) (huid : env.userId = some u)
    (hbal : checkBalance w.db u MAX_COST = Except.ok bc)
    (hsuff : bc.sufficient = true)
    (hmiss : kvGet w.cacheKV (buildCacheKey ACTOR_ID (hashApifyInput
      [("actorId", Json.str ACTOR_ID),
       ("input", Json.obj [("videoUrl", Json.str env.videoUrl)])])) = none)
    (hfull : w.sem.activeSlots ≥ MAX_SLOTS) :
    (acquireSlot w.sem u ACTOR_ID env.nowId env.nowTs).1.acquired = false ∧
    (runGetYoutubeTranscript env w).releaseCalls = 1 ∧
    (runGetYoutubeTranscript env w).world.sem = releaseSlot w.sem u ∧
    (∀ q, w.sem.slotRegistry.find? (fun p => p.2.userId = u) = some q →
      (semKeys w.sem).Nodup →
      (runGetYoutubeTranscript env w).world.sem.slotRegistry.length =
        w.sem.slotRegistry.length - 1) := by
  have hacq : acquireSlot w.sem u ACTOR_ID env.nowId env.nowTs =
      ({ acquired := false, currentSlots := w.sem.activeSlots,
         maxSlots := MAX_SLOTS, estimatedWaitTime := some 60 }, w.sem) := by
    simp [acquireSlot, if_pos hfull]
  have hmain : (runGetYoutubeTranscript env w).releaseCalls = 1 ∧
      (runGetYoutubeTranscript env w).world.sem = releaseSlot w.sem u := by
    cases hb : env.backend with
    | error e =>
        simp [runGetYoutubeTranscript, hvid, huid, hbal, hsuff, hmiss,
          hacq, hb, errorOutcome]
    | ok items =>
        cases hh : items.head? with
        | none =>
            simp [runGetYoutubeTranscript, hvid, huid, hbal,
hsuff, hmiss,
              hacq, hb, hh, not_true, if_false, errorOutcome]
        | some t =>
            cases hd : t.data with
            | none =>
                simp [runGetYoutubeTranscript, hvid, huid, hbal,
hsuff,
                  hmiss, hacq, hb, hh, hd, not_true, if_false, errorOutcome]
            | some d =>
                by_cases hde : d = []
                · subst hde
                  simp [runGetYoutubeTranscript, hvid, huid, hbal,
hsuff,
                    hmiss, hacq, hb, hh, hd, not_true, if_false, errorOutcome]
                · by_cases hr : trimChars (env.redactedOf t) = ""
                  · simp [runGetYoutubeTranscript, hvid, huid, hbal,
                      hsuff, hmiss, hacq, hb, hh, hd, if_neg hde, hr, not_true,
                      if_false, errorOutcome]
                  · rcases hcall : consumeTokensWithRetry w.db u FLAT_COST
                        "youtube-transcript" TOOL_NAME
                        (paramsResultJson env.videoUrl (cachedToJson
                          { videoId := v, videoUrl := env.videoUrl,
                            transcript := env.redactedOf t,
                            wordCount := countWords (env.redactedOf t) }))
                        false env.actionId env.txId env.timestamp with ⟨exc, db2⟩
                    cases exc with
                    | error e2 =>
                        simp [runGetYoutubeTranscript, hvid, huid, hbal,
                          hsuff, hmiss, hacq, hb, hh, hd, if_neg hde,
                          if_neg hr, hcall, not_true, if_false, errorOutcome]
                    | ok res =>
                        simp [runGetYoutubeTranscript, hvid, huid, hbal,
                          hsuff, hmiss, hacq, hb, hh, hd, if_neg hde,
                          if_neg hr, hcall, not_true, if_false, errorOutcome]
  refine ⟨by rw [hacq], hmain.1, hmain.2, ?_⟩
  intro q hfind hnd
  rw [hmain.2]
  obtain ⟨qk, qv⟩ := q
  simp only [releaseSlot, hfind]
  have h2 := (mapDelete_of_find? hnd hfind).2
  exact h2

def semC9 : SemState :=
  { activeSlots := 32,
    slotRegistry :=
      ("u1-1", { userId := "u1", actorId := "act", timestamp := 1 }) ::
      (List.range 31).map (fun i =>
        ("w" ++ toString i ++ "-0",
         { userId := "w" ++ toString i, actorId := "act", timestamp := 0 })) }

def dbC9 : DB :=
  { users := [("u1", { current_token_balance := 10, total_tokens_used := 0,
                       is_deleted := 0 })],
    mcp_actions := [], transactions := [], failed_deductions := [] }

def envC9 : ToolEnv :=
  { videoUrl := "https://youtu.be/vidZ", videoId := some "vidZ",
    userId := some "u1", backend := Except.error "Actor run failed: 429",
    redactedOf := fun _ => "x", nowId := 9, nowTs := 9, actionId := "a9w",
    txId := "t9", timestamp := "ts9" }

def worldC9 : World := { db := dbC9, cacheKV := [], sem := semC9 }

set_option maxRecDepth 100000 in
/-- Witness for `refused_slot_still_released`: semaphore at 32/32, user
"u1" owning one in-flight slot, backend throwing. -/
theorem refused_slot_still_released_witness :
    (acquireSlot worldC9.sem "u1" ACTOR_ID envC9.nowId envC9.nowTs).1.acquired
        = false ∧
    (runGetYoutubeTranscript envC9 worldC9).releaseCalls = 1 ∧
    (runGetYoutubeTranscript envC9 worldC9).world.sem =
      releaseSlot worldC9.sem "u1" ∧
    (∀ q, worldC9.sem.slotRegistry.find? (fun p => p.2.userId = "u1") =
        some q →
      (semKeys worldC9.sem).Nodup →
      (runGetYoutubeTranscript envC9 worldC9).world.sem.slotRegistry.length =
        worldC9.sem.slotRegistry.length - 1) :=
  refused_slot_still_released envC9 worldC9 "vidZ" "u1"
    { sufficient := true, currentBalance := 10, required := 3,
      userDeleted := some false } rfl rfl rfl rfl rfl (by decide)

/-! ## Claim C1: the capacity refusal is ignored (code bug) -/

def dbC1 : DB :=
  { users := [("u1", { current_token_balance := 10, total_tokens_used := 0,
                       is_deleted := 0 })],
    mcp_actions := [], transactions := [], failed_deductions := [] }

def semFullC1 : SemState :=
  { activeSlots := 32,
    slotRegistry := (List.range 32).map (fun i =>
      ("w" ++ toString i ++ "-0",
       { userId := "w" ++ toString i, actorId := "act", timestamp := 0 })) }

def envC1 : ToolEnv :=
  { videoUrl := "https://youtu.be/vidX", videoId := some "vidX",
    userId := some "u1",
    backend := Except.ok [{ data := some ["seg1", "seg2"] }],
    redactedOf := fun _ => "hello transcript",
    nowId := 999, nowTs := 999, actionId := "actionC1", txId := "txC1",
    timestamp := "tsC1" }

def worldC1 : World := { db := dbC1, cacheKV := [], sem := semFullC1 }

set_option maxRecDepth 100000 in
/-- Claim C1 (code bug, evaluated at the failing input): the semaphore
is at 32/32 and the cache misses, so `acquireSlot` refuses
(`acquired = false`) — yet the handler, which never inspects
`slot.acquired`, still executes the backend job once, charges the full
3 tokens under the pre-generated action id, returns a success outcome
instead of a structured capacity error, and the user's balance drops
from 10 to 7. -/
theorem capacity_refusal_ignored :
    (acquireSlot worldC1.sem "u1" ACTOR_ID envC1.nowId envC1.nowTs).1.acquired
        = false ∧
    (runGetYoutubeTranscript envC1 worldC1).backendCalls = 1 ∧
    (runGetYoutubeTranscript envC1 worldC1).debitCalls =
      [(FLAT_COST, "actionC1")] ∧
    (runGetYoutubeTranscript envC1 worldC1).outcome.isError = false ∧
    findUser (runGetYoutubeTranscript envC1 worldC1).world.db "u1" =
      some { current_token_balance := 7, total_tokens_used := 3,
             is_deleted := 0 } := by
  decide

end YT
